import Mathlib

/-!
Verification development for `git_iterative_blame.py`.

The Python source is shallowly embedded below: Python strings are modelled
as `String` (or `List Char` where the code inspects characters), Python
`None`-able values as `Option`, Python `float` ratios as exact rationals
`ℚ`, and fallible code (assertions, `KeyError`, uncaught runtime errors)
as `Except String` / `Option`.  Subprocess calls (`git rev-parse`,
`git show`, `git blame`) are external collaborators; the structures they
fill (`Commit`, `FileBlame`) are modelled as plain data, while every pure
computation on their raw textual output (diff parsing, blame lookup, line
matching, display filtering, interactive-choice handling) is embedded
faithfully from the source.
-/

/-! ### Python string primitives -/

/-- Whitespace characters recognised by Python `str.strip` / `str.rstrip`
(ASCII subset: space, tab, newline, carriage return, vertical tab, form feed). -/
def pyIsSpaceChar (c : Char) : Bool :=
  c = ' ' || c = '\t' || c = '\n' || c = '\r' || c = '\x0b' || c = '\x0c'

/-- Python `str.rstrip()` on a character list. -/
def pyRstripList (cs : List Char) : List Char :=
  (cs.reverse.dropWhile pyIsSpaceChar).reverse

/-- Python `str.strip()` on a character list. -/
def pyStripList (cs : List Char) : List Char :=
  ((cs.dropWhile pyIsSpaceChar).reverse.dropWhile pyIsSpaceChar).reverse

/-- Python `str.strip()` on a string. -/
def pyStrip (s : String) : String :=
  ⟨pyStripList s.toList⟩

/-- Length of the longest common prefix of two character lists:
`len(os.path.commonprefix([a, b]))`. -/
def commonPrefixLength : List Char → List Char → Nat
  | a :: as, b :: bs => if a = b then commonPrefixLength as bs + 1 else 0
  | _, _ => 0

/-- Numeric value of a decimal digit string (used for `int(...)` on
digit-only input). -/
def natFromDigits (ds : List Char) : Nat :=
  ds.foldl (fun n c => n * 10 + (c.toNat - 48)) 0

/-- Python `str.isdigit()` restricted to ASCII decimal digits: true iff the
string is non-empty and all characters are digits. -/
def pyIsDigit (s : String) : Bool :=
  !s.toList.isEmpty && s.toList.all Char.isDigit

/-- Python `int(s)` on a decimal literal: optional surrounding whitespace,
optional sign, then one or more digits; `none` models `ValueError`. -/
def pyParseInt (s : String) : Option Int :=
  match pyStripList s.toList with
  | '-' :: ds =>
      if !ds.isEmpty && ds.all Char.isDigit then some (-(natFromDigits ds : Int)) else none
  | '+' :: ds =>
      if !ds.isEmpty && ds.all Char.isDigit then some (natFromDigits ds : Int) else none
  | ds =>
      if !ds.isEmpty && ds.all Char.isDigit then some (natFromDigits ds : Int) else none

/-! ### Data model (git data structures) -/

/-- One line of a unified diff body (`class FileDiffLine`).  `filename` is
`self.filename` of the enclosing `FileDiff` at emission time (Python allows
it to still be `None`); `left_line_num` / `right_line_num` are the
pre-image / post-image line numbers, each absent for pure additions /
deletions respectively.  Equality is structural, matching
`FileDiffLine.__eq__` (all four fields). -/
structure FileDiffLine where
  filename : Option String
  left_line_num : Option Nat
  right_line_num : Option Nat
  line_contents : String
deriving DecidableEq

/-- The parsed diff of one file within one commit (`class FileDiff`). -/
structure FileDiff where
  filename : Option String
  lines : List FileDiffLine
deriving DecidableEq

/-- One commit (`class Commit`); `file_diffs` models the Python dict
`self.file_diffs` (filename key → FileDiff) as an association list. -/
structure Commit where
  hash : String
  author : Option String
  date : Option String
  commit_message : String
  file_diffs : List (String × FileDiff)

/-- One line of `git blame` output (`class LineBlame`). -/
structure LineBlame where
  filename : String
  orig_line_number : Nat
  current_line_number : Nat
  commit_hash : String
  line_contents : String
deriving DecidableEq

/-- The parsed blame of one file (`class FileBlame`). -/
structure FileBlame where
  commit_hash : Option String
  filename : String
  lines : List LineBlame
deriving DecidableEq

/-- `FileBlame.get_line_orig`: scan for the first line whose original line
number matches; `none` models the `KeyError` raised when no line matches. -/
def FileBlame.get_line_orig (b : FileBlame) (line_num : Nat) : Option LineBlame :=
  b.lines.find? (fun line => line.orig_line_number == line_num)

/-- `FileBlame.get_line_current`: scan for the first line whose current line
number matches; `none` models the `KeyError` raised when no line matches. -/
def FileBlame.get_line_current (b : FileBlame) (line_num : Nat) : Option LineBlame :=
  b.lines.find? (fun line => line.current_line_number == line_num)

/-- `Commit.__eq__`: commits compare by resolved hash only. -/
def Commit.eq (c1 c2 : Commit) : Bool :=
  c1.hash == c2.hash

/-- `FileDiff.get_line`: first diff line with exactly the requested
(pre-image, post-image) number pair; `none` models the `KeyError`. -/
def FileDiff.get_line (d : FileDiff) (left_num right_num : Option Nat) : Option FileDiffLine :=
  d.lines.find? (fun l => l.left_line_num == left_num && l.right_line_num == right_num)

/-! ### Line matching (`lines_match`) -/

/-- `lines_match(l1, l2, params)` from the source: strip both line texts;
two blank lines match; a blank and a non-blank line never match; otherwise
the lines match iff the common-prefix length divided by either stripped
length strictly exceeds `min_prefix_length` (the `params` dict is modelled
by passing the ratio, default `0.8`, directly; Python float division of the
two lengths is modelled by the exact rational `mkRat`, and
`lines_match_ratio_spec` below restates the comparison with `ℚ` division). -/
def lines_match (l1 l2 : FileDiffLine) (min_prefix_length : ℚ) : Bool :=
  let l1_strip := pyStripList l1.line_contents.toList
  let l2_strip := pyStripList l2.line_contents.toList
  if l1_strip.isEmpty && l2_strip.isEmpty then true
  else if l1_strip.isEmpty || l2_strip.isEmpty then false
  else
    let preLen := commonPrefixLength l1_strip l2_strip
    decide (mkRat preLen l1_strip.length > min_prefix_length) ||
      decide (mkRat preLen l2_strip.length > min_prefix_length)

/-- The `mkRat` comparisons in `lines_match` coincide with rational division
of the two lengths, as the source computes with `float` division. -/
theorem lines_match_ratio_spec (a : Nat) (b : Nat) (p : ℚ) :
    (mkRat a b > p) ↔ ((a : ℚ) / (b : ℚ) > p) := by
  rw [Rat.mkRat_eq_divInt, Rat.divInt_eq_div]
  push_cast
  rfl

example : lines_match ⟨none, none, none, "foobar"⟩ ⟨none, none, none, "foobaz"⟩ (mkRat 4 5) = true := by
  decide

example : lines_match ⟨none, none, none, "foobar"⟩ ⟨none, none, none, "foobaz"⟩ (mkRat 9 10) = false := by
  decide

example : lines_match ⟨none, none, none, ""⟩ ⟨none, none, none, ""⟩ (mkRat 4 5) = true := by decide

example : lines_match ⟨none, none, none, ""⟩ ⟨none, none, none, "x"⟩ (mkRat 4 5) = false := by decide

/-! ### Change-set parsing (`FileDiff.__init__`) -/

/-- Consume an expected literal character sequence from the front of a
line, failing if the line does not start with it. -/
def dropLit : List Char → List Char → Option (List Char)
  | [], cs => some cs
  | _ :: _, [] => none
  | l :: ls, c :: cs => if c = l then dropLit ls cs else none

/-- Consume a maximal non-empty run of decimal digits, returning its value
(the `([0-9]+)` groups of the hunk-header regex). -/
def readNat (cs : List Char) : Option (Nat × List Char) :=
  let ds := cs.takeWhile Char.isDigit
  if ds.isEmpty then none else some (natFromDigits ds, cs.dropWhile Char.isDigit)

/-- The hunk-header regex
`re.match(r'^@@ -([0-9]+),[0-9]+ \+([0-9]+),[0-9]+ @@', line)`:
on success returns the two captured start values (old-start, new-start).
As with `re.match`, anything may follow the closing `@@`. -/
def parseHunkHeader (cs : List Char) : Option (Nat × Nat) := do
  let cs ← dropLit "@@ -".toList cs
  let (a, cs) ← readNat cs
  let cs ← dropLit ",".toList cs
  let (_, cs) ← readNat cs
  let cs ← dropLit " +".toList cs
  let (b, cs) ← readNat cs
  let cs ← dropLit ",".toList cs
  let (_, cs) ← readNat cs
  let _ ← dropLit " @@".toList cs
  return (a, b)

example : parseHunkHeader "@@ -10,3 +10,4 @@ def foo():".toList = some (10, 10) := by decide

example : parseHunkHeader " context".toList = none := by decide

/-- The mutable local state of the `FileDiff.__init__` parsing loop:
the accumulated `self.lines`, `self.filename`, the `parsing_contents`
flag, and the two running line counters (Python leaves the counters
undefined until the first hunk header; they are initialized to `0` here
and the code never reads them before a hunk header sets them). -/
structure FDState where
  lines : List FileDiffLine
  filename : Option String
  parsing_contents : Bool
  left_line_num : Nat
  right_line_num : Nat
deriving DecidableEq

/-- Initial parser state at the top of `FileDiff.__init__`. -/
def FDState.init : FDState :=
  { lines := [], filename := none, parsing_contents := false,
    left_line_num := 0, right_line_num := 0 }

/-- One iteration of the `for line in lines` loop of `FileDiff.__init__`,
with each branch in the order the Python code tests it:
`diff`-prefixed and `index`-prefixed lines assert `not parsing_contents`
and are skipped; `--- a/` / `+++ b/` lines, when not yet parsing hunk
contents, set (or assert agreement with) the filename; a hunk-header match
turns on `parsing_contents` and resets both counters; afterwards a leading
space emits a context line and advances both counters, a leading `-` emits
a deletion carrying only the pre-image counter, a leading `+` emits an
addition carrying only the post-image counter, and anything else hits
`assert False` (a fatal parse error, modelled as `Except.error`). -/
def fdStep (st : FDState) (line : List Char) : Except String FDState :=
  if ("diff".toList).isPrefixOf line then
    if st.parsing_contents then .error "assertion failed: diff line while parsing contents"
    else .ok st
  else if ("index".toList).isPrefixOf line then
    if st.parsing_contents then .error "assertion failed: index line while parsing contents"
    else .ok st
  else if (("--- a/".toList).isPrefixOf line || ("+++ b/".toList).isPrefixOf line)
      && !st.parsing_contents then
    match st.filename with
    | some f =>
        if f = String.mk (line.drop 6) then .ok st
        else .error "assertion failed: filename mismatch"
    | none => .ok { st with filename := some (String.mk (line.drop 6)) }
  else
    match parseHunkHeader line with
    | some (l, r) =>
        .ok { st with parsing_contents := true, left_line_num := l, right_line_num := r }
    | none =>
      if st.parsing_contents then
        match line with
        | [] => .error "unrecognized line"
        | c :: rest =>
          if c = ' ' then
            .ok { st with
              lines := st.lines ++
                [⟨st.filename, some st.left_line_num, some st.right_line_num,
                  ⟨pyRstripList rest⟩⟩],
              left_line_num := st.left_line_num + 1,
              right_line_num := st.right_line_num + 1 }
          else if c = '-' then
            .ok { st with
              lines := st.lines ++
                [⟨st.filename, some st.left_line_num, none, ⟨pyRstripList rest⟩⟩],
              left_line_num := st.left_line_num + 1 }
          else if c = '+' then
            .ok { st with
              lines := st.lines ++
                [⟨st.filename, none, some st.right_line_num, ⟨pyRstripList rest⟩⟩],
              right_line_num := st.right_line_num + 1 }
          else .error "unrecognized line"
      else .ok st

/-- The whole `for line in lines` loop of `FileDiff.__init__`. -/
def fdLoop (st : FDState) : List (List Char) → Except String FDState
  | [] => .ok st
  | line :: rest =>
    match fdStep st line with
    | .ok st' => fdLoop st' rest
    | .error e => .error e

/-- `FileDiff(lines)`: run the parsing loop from the initial state and
package the result. -/
def FileDiff.parse (lines : List String) : Except String FileDiff :=
  match fdLoop FDState.init (lines.map String.toList) with
  | .ok st => .ok ⟨st.filename, st.lines⟩
  | .error e => .error e

example :
    FileDiff.parse
      ["diff --git a/f.txt b/f.txt", "index 111..222 100644",
       "--- a/f.txt", "+++ b/f.txt", "@@ -10,3 +10,4 @@",
       " alpha", " beta", "+new line", " gamma"] =
    .ok ⟨some "f.txt",
      [⟨some "f.txt", some 10, some 10, "alpha"⟩,
       ⟨some "f.txt", some 11, some 11, "beta"⟩,
       ⟨some "f.txt", none, some 12, "new line"⟩,
       ⟨some "f.txt", some 12, some 13, "gamma"⟩]⟩ := by rfl

/-! ### Candidate matching (`iterative_blame_interactive`, match loop) -/

/-- A key of the `highlight_lines` dict and an element of `all_matches`:
`(d.filename, l.left_line_num, l.right_line_num)`. -/
abbrev HighlightKey := Option String × Option Nat × Option Nat

/-- `sorted(c.file_diffs.items())`: the file-diff dict items sorted by
filename key (Python tuple comparison on distinct keys orders by key;
`sorted` is stable, as is `mergeSort`). -/
def sortFileDiffs (c : Commit) : List (String × FileDiff) :=
  c.file_diffs.mergeSort (fun a b => decide (a.1 ≤ b.1))

/-- The sequence of `(d.filename, l)` pairs visited by the nested loops
`for _, d in sorted(c.file_diffs.items()): for l in d.lines:`. -/
def matchPairs (c : Commit) : List (Option String × FileDiffLine) :=
  (sortFileDiffs c).flatMap fun kd => kd.2.lines.map fun l => (kd.2.filename, l)

/-- The loop body guarded by
`if lines_match(l, target_line, params=match_params) and (l != target_line)
and (l.left_line_num is not None)`: append
`(d.filename, l.left_line_num, l.right_line_num)` to `all_matches` and
record `highlight_lines[match] = str(len(all_matches))` (the dict is
modelled as an association list extended on the right). -/
def matchFold (target_line : FileDiffLine) (match_params : ℚ)
    (acc : List HighlightKey × List (HighlightKey × String))
    (x : Option String × FileDiffLine) :
    List HighlightKey × List (HighlightKey × String) :=
  if lines_match x.2 target_line match_params = true ∧ x.2 ≠ target_line ∧
      x.2.left_line_num ≠ none then
    (acc.1 ++ [(x.1, x.2.left_line_num, x.2.right_line_num)],
     acc.2 ++ [((x.1, x.2.left_line_num, x.2.right_line_num), toString (acc.1.length + 1))])
  else acc

/-- The complete match computation of one `ResolveStep`: starting from
`all_matches = []` and `highlight_lines = ((target key) ↦ 'target')`, run
the nested loops over the sorted change-set.  Returns the final
`(all_matches, highlight_lines)` pair. -/
def computeMatchState (c : Commit) (target_line : FileDiffLine) (match_params : ℚ)
    (targetKey : HighlightKey) :
    List HighlightKey × List (HighlightKey × String) :=
  (matchPairs c).foldl (matchFold target_line match_params) ([], [(targetKey, "target")])

/-- The labels `str(1), str(2), ...` attached to consecutively appended
matches, starting after `n` earlier matches. -/
def labelFrom (n : Nat) : List HighlightKey → List (HighlightKey × String)
  | [] => []
  | m :: ms => (m, toString (n + 1)) :: labelFrom (n + 1) ms

/-! ### Display filtering (`FileDiff.print_stream`, `Commit.print_stream`) -/

/-- The `should_show_line` computation of `FileDiff.print_stream`: with no
context clipping every line is shown; with clipping active a line is shown
iff some highlight key is within `context_around_highlights` of it in the
pre-image numbering or in the post-image numbering (each comparison
requires both numbers of that side to be present). -/
def shouldShowLine (context_around_highlights : Option Nat)
    (highlight_lines : List ((Option Nat × Option Nat) × String))
    (l : FileDiffLine) : Bool :=
  match context_around_highlights with
  | none => true
  | some ctx =>
    highlight_lines.any fun entry =>
      (match l.left_line_num, entry.1.1 with
       | some a, some b => ((a : ℤ) - (b : ℤ)).natAbs < ctx
       | _, _ => false) ||
      (match l.right_line_num, entry.1.2 with
       | some a, some b => ((a : ℤ) - (b : ℤ)).natAbs < ctx
       | _, _ => false)

/-- The diff lines of one file that `FileDiff.print_stream` actually
prints (those whose `should_show_line` is true). -/
def FileDiff.displayedLines (d : FileDiff) (context_around_highlights : Option Nat)
    (highlight_lines : List ((Option Nat × Option Nat) × String)) : List FileDiffLine :=
  d.lines.filter (shouldShowLine context_around_highlights highlight_lines)

/-- The `this_file_highlight_lines` computation of `Commit.print_stream`:
keep the highlight entries whose key filename equals `d.filename`,
re-keyed by the line-number pair. -/
def fileHighlightLines
    (highlight_lines : List (HighlightKey × String)) (filename : Option String) :
    List ((Option Nat × Option Nat) × String) :=
  highlight_lines.filterMap fun entry =>
    if entry.1.1 = filename then some ((entry.1.2.1, entry.1.2.2), entry.2) else none

/-- The files `Commit.print_stream` displays, in sorted order: when context
clipping is active, a file with no highlight entry of its own is skipped
(`continue`) entirely. -/
def Commit.displayedFiles (c : Commit)
    (highlight_lines : List (HighlightKey × String))
    (context_around_highlights : Option Nat) : List (String × FileDiff) :=
  (sortFileDiffs c).filter fun kd =>
    !(context_around_highlights.isSome &&
      (fileHighlightLines highlight_lines kd.2.filename).isEmpty)

/-- The context selection
`context_around_highlights = None if (full_diffs or not highlight_lines) else 10`
of `iterative_blame_interactive`. -/
def contextAroundHighlights (full_diffs : Bool)
    (highlight_lines : List (HighlightKey × String)) : Option Nat :=
  if full_diffs || highlight_lines.isEmpty then none else some 10

/-! ### Interactive choice handling (`iterative_blame_interactive`, input loop) -/

/-- The value the input loop leaves in `choice` after one accepted entry:
a validated match index, an explicit `file:line` pair, `q`, `f`, or a
rejected entry (`None`, which repeats the prompt). -/
inductive ChoiceVal where
  | num (k : Nat)
  | loc (filename : String) (line : Int)
  | quit
  | fullDiff
  | invalid
deriving DecidableEq

/-- Python `str.split(sep)` for a one-character separator. -/
def pySplitChar (sep : Char) : List Char → List (List Char)
  | [] => [[]]
  | c :: rest =>
    match pySplitChar sep rest with
    | [] => [[]]
    | g :: gs => if c = sep then [] :: g :: gs else (c :: g) :: gs

/-- One pass of the `while choice is None` input loop over a raw input
string, in source order: `choice.isdigit()` converts and range-checks a
match index against `all_matches`; `q` quits; `f` reprints with full
diffs; an entry containing `:` must split into exactly two parts with an
integer second part, otherwise (`ValueError`) it is rejected; anything
else is rejected. -/
def parseChoice (s : String) (num_matches : Nat) : ChoiceVal :=
  if pyIsDigit s then
    let k := natFromDigits s.toList
    if k < 1 ∨ k > num_matches then .invalid else .num k
  else if s = "q" then .quit
  else if s = "f" then .fullDiff
  else if s.toList.contains ':' then
    match pySplitChar ':' s.toList with
    | [fn, line] =>
      match pyParseInt ⟨line⟩ with
      | some n => .loc ⟨fn⟩ n
      | none => .invalid
    | _ => .invalid
  else .invalid

/-- The cursor produced by a selection: target filename, target line
number, and the commit to inspect next. -/
structure TraceCursor where
  target_filename : Option String
  target_line_num : Option Int
  commit_hash : String
deriving DecidableEq

/-- The dispatch after the input loop, under Python 3 semantics.  A
`file:line` tuple choice updates the cursor to that location with
`commit_hash = c.hash + '^'`.  A numeric choice reaches
`isinstance(choice, (int, long))`, and evaluating the name `long` raises
`NameError` under Python 3 (`long` exists only in Python 2), so the
selection aborts the process instead of reading `all_matches[choice - 1]`;
this is modelled as `Except.error`.  `q` returns from the function before
this point and `f`/rejected entries keep looping, so those values never
reach the dispatch. -/
def applyChoice (c_hash : String) (_all_matches : List HighlightKey) :
    ChoiceVal → Except String TraceCursor
  | .loc fn line => .ok ⟨some fn, some line, c_hash ++ "^"⟩
  | .num _ => .error "NameError: name long is not defined"
  | _ => .error "assertion failed: incorrect value for choice"

example : parseChoice "1" 1 = .num 1 := by decide

example : parseChoice "2" 1 = .invalid := by decide

example : parseChoice "src/a.py:17" 0 = .loc "src/a.py" 17 := by decide

example : parseChoice "q" 0 = .quit := by rfl

/-! ### Helper lemmas -/

/-- The common-prefix length is bounded by the first list's length. -/
theorem commonPrefixLength_le_left : ∀ (a b : List Char), commonPrefixLength a b ≤ a.length
  | [], _ => by simp [commonPrefixLength]
  | _ :: _, [] => by simp [commonPrefixLength]
  | a :: as, b :: bs => by
    simp only [commonPrefixLength, List.length_cons]
    by_cases h : a = b
    · simpa [h] using commonPrefixLength_le_left as bs
    · simp [h]

/-- The common-prefix length is symmetric in its two arguments. -/
theorem commonPrefixLength_comm : ∀ (a b : List Char),
    commonPrefixLength a b = commonPrefixLength b a
  | [], [] => rfl
  | [], _ :: _ => rfl
  | _ :: _, [] => rfl
  | a :: as, b :: bs => by
    simp only [commonPrefixLength]
    by_cases h : a = b
    · subst h
      simp [commonPrefixLength_comm as bs]
    · simp [h, Ne.symm h]

/-- A ratio of a numerator at most the (positive) denominator is at most one. -/
theorem mkRat_le_one_of_le (a b : Nat) (hab : a ≤ b) (hb : 0 < b) : ¬ (mkRat a b > 1) := by
  rw [lines_match_ratio_spec]
  have hb' : (0 : ℚ) < (b : ℚ) := by exact_mod_cast hb
  have : (a : ℚ) / (b : ℚ) ≤ 1 := (div_le_one hb').mpr (by exact_mod_cast hab)
  exact not_lt.mpr this

/-! ### Claim theorems -/

/-- C9: `Commit.__eq__` compares only the resolved hash: two commits are
equal iff their hashes are equal, regardless of author, date, message, or
file diffs. -/
theorem commit_eq_hash_only :
    (∀ c1 c2 : Commit, Commit.eq c1 c2 = true ↔ c1.hash = c2.hash) ∧
    (∀ (h : String) (a1 d1 : Option String) (m1 : String)
        (f1 : List (String × FileDiff)) (a2 d2 : Option String) (m2 : String)
        (f2 : List (String × FileDiff)),
      Commit.eq ⟨h, a1, d1, m1, f1⟩ ⟨h, a2, d2, m2, f2⟩ = true) := by
  refine ⟨fun c1 c2 => ?_, fun h a1 d1 m1 f1 a2 d2 m2 f2 => ?_⟩
  · simp [Commit.eq]
  · simp [Commit.eq]

/-- C6: looking up a line number absent from a `FileBlame` fails with a
not-found error (`KeyError`, modelled as `none`) — both for current and
for original line numbers — and never returns a default value. -/
theorem get_line_absent_fails (b : FileBlame) (n : Nat)
    (hcur : ∀ l ∈ b.lines, l.current_line_number ≠ n)
    (horig : ∀ l ∈ b.lines, l.orig_line_number ≠ n) :
    b.get_line_current n = none ∧ b.get_line_orig n = none := by
  constructor
  · refine List.find?_eq_none.mpr fun l hl => ?_
    simpa using hcur l hl
  · refine List.find?_eq_none.mpr fun l hl => ?_
    simpa using horig l hl

/-- Witness for C6: a one-line blame has no entry for line 2. -/
theorem get_line_absent_fails_witness :
    FileBlame.get_line_current ⟨none, "a.txt", [⟨"a.txt", 1, 1, "abc123", "text"⟩]⟩ 2 = none ∧
    FileBlame.get_line_orig ⟨none, "a.txt", [⟨"a.txt", 1, 1, "abc123", "text"⟩]⟩ 2 = none :=
  get_line_absent_fails ⟨none, "a.txt", [⟨"a.txt", 1, 1, "abc123", "text"⟩]⟩ 2
    (by decide) (by decide)

/-- C1 (code bug): with one candidate match, the input `"1"` passes the
input loop's validation (`choice.isdigit()` and the 1..len range check)
and leaves the integer 1 in `choice`; the dispatch then evaluates
`isinstance(choice, (int, long))`, which raises `NameError` under
Python 3 because `long` does not exist, so the process aborts instead of
producing the new trace cursor. -/
theorem numeric_selection_raises_nameerror :
    parseChoice "1" ([((some "a.txt" : Option String), (some 5 : Option Nat),
        (none : Option Nat))].length) = ChoiceVal.num 1 ∧
    applyChoice "abc123" [(some "a.txt", some 5, none)] (ChoiceVal.num 1) =
      Except.error "NameError: name long is not defined" :=
  ⟨by decide, rfl⟩

/-- C8: the similarity test is symmetric: `lines_match l1 l2 p` equals
`lines_match l2 l1 p` for every pair of diff lines and every parameter. -/
theorem lines_match_symm (l1 l2 : FileDiffLine) (p : ℚ) :
    lines_match l1 l2 p = lines_match l2 l1 p := by
  simp only [lines_match]
  rcases h1 : pyStripList l1.line_contents.toList with _ | ⟨c1, r1⟩ <;>
    rcases h2 : pyStripList l2.line_contents.toList with _ | ⟨c2, r2⟩
  · rfl
  · rfl
  · rfl
  · rw [commonPrefixLength_comm]
    exact Bool.or_comm _ _

/-- The common-prefix length is bounded by the second list's length. -/
theorem commonPrefixLength_le_right (a b : List Char) : commonPrefixLength a b ≤ b.length := by
  rw [commonPrefixLength_comm]
  exact commonPrefixLength_le_left b a

/-- C2: for whitespace-trimmed texts and any threshold `p ∈ (0, 1]`, the
similarity test succeeds iff both texts are empty, or both are non-empty
and the longest-common-prefix length divided by either text's length
strictly exceeds `p`; in particular `"foobar"`/`"foobaz"` match at `4/5`
but not at `9/10`, and a blank line matches a blank line but not `"x"`. -/
theorem lines_match_prefix_ratio_spec :
    (∀ (l1 l2 : FileDiffLine) (p : ℚ), 0 < p → p ≤ 1 →
      (lines_match l1 l2 p = true ↔
        (pyStripList l1.line_contents.toList = [] ∧
         pyStripList l2.line_contents.toList = []) ∨
        (pyStripList l1.line_contents.toList ≠ [] ∧
         pyStripList l2.line_contents.toList ≠ [] ∧
          (((commonPrefixLength (pyStripList l1.line_contents.toList)
                (pyStripList l2.line_contents.toList) : ℚ) /
              ((pyStripList l1.line_contents.toList).length : ℚ) > p) ∨
           ((commonPrefixLength (pyStripList l1.line_contents.toList)
                (pyStripList l2.line_contents.toList) : ℚ) /
              ((pyStripList l2.line_contents.toList).length : ℚ) > p))))) ∧
    lines_match ⟨none, none, none, "foobar"⟩ ⟨none, none, none, "foobaz"⟩ (mkRat 4 5) = true ∧
    lines_match ⟨none, none, none, "foobar"⟩ ⟨none, none, none, "foobaz"⟩ (mkRat 9 10) = false ∧
    lines_match ⟨none, none, none, ""⟩ ⟨none, none, none, ""⟩ (mkRat 4 5) = true ∧
    lines_match ⟨none, none, none, ""⟩ ⟨none, none, none, "x"⟩ (mkRat 4 5) = false := by
  refine ⟨fun l1 l2 p _hp0 _hp1 => ?_, by decide, by decide, by decide, by decide⟩
  simp only [lines_match]
  rcases e1 : pyStripList l1.line_contents.toList with _ | ⟨c1, r1⟩ <;>
    rcases e2 : pyStripList l2.line_contents.toList with _ | ⟨c2, r2⟩
  · simp
  · simp
  · simp
  · simp [lines_match_ratio_spec]

/-- Witness for C2 at the spec's own example: `"foobar"` vs `"foobaz"`
with threshold `4/5`. -/
theorem lines_match_prefix_ratio_spec_witness :
    (0 < mkRat 4 5) ∧ (mkRat 4 5 ≤ 1) ∧
    (lines_match ⟨none, none, none, "foobar"⟩ ⟨none, none, none, "foobaz"⟩ (mkRat 4 5) = true ↔
      (pyStripList "foobar".toList = [] ∧ pyStripList "foobaz".toList = []) ∨
      (pyStripList "foobar".toList ≠ [] ∧ pyStripList "foobaz".toList ≠ [] ∧
        (((commonPrefixLength (pyStripList "foobar".toList) (pyStripList "foobaz".toList) : ℚ) /
            ((pyStripList "foobar".toList).length : ℚ) > mkRat 4 5) ∨
         ((commonPrefixLength (pyStripList "foobar".toList) (pyStripList "foobaz".toList) : ℚ) /
            ((pyStripList "foobaz".toList).length : ℚ) > mkRat 4 5)))) :=
  ⟨by decide, by decide,
   lines_match_prefix_ratio_spec.1 ⟨none, none, none, "foobar"⟩ ⟨none, none, none, "foobaz"⟩
     (mkRat 4 5) (by decide) (by decide)⟩

/-- C10: with `min_prefix_length = 1` the strict ratio comparison can never
succeed for two non-blank lines — even textually identical ones — while
two blank lines still match through the blank-blank branch. -/
theorem lines_match_threshold_one :
    (∀ l1 l2 : FileDiffLine,
        pyStripList l1.line_contents.toList ≠ [] →
        pyStripList l2.line_contents.toList ≠ [] →
        lines_match l1 l2 1 = false) ∧
    (∀ l1 l2 : FileDiffLine,
        pyStripList l1.line_contents.toList = [] →
        pyStripList l2.line_contents.toList = [] →
        lines_match l1 l2 1 = true) := by
  constructor
  · intro l1 l2 h1 h2
    simp only [lines_match]
    rcases e1 : pyStripList l1.line_contents.toList with _ | ⟨c1, r1⟩
    · exact absurd e1 h1
    rcases e2 : pyStripList l2.line_contents.toList with _ | ⟨c2, r2⟩
    · exact absurd e2 h2
    have hA := mkRat_le_one_of_le (commonPrefixLength (c1 :: r1) (c2 :: r2))
      (c1 :: r1).length (commonPrefixLength_le_left _ _) (by simp)
    have hB := mkRat_le_one_of_le (commonPrefixLength (c1 :: r1) (c2 :: r2))
      (c2 :: r2).length (commonPrefixLength_le_right _ _) (by simp)
    simp [decide_eq_false hA, decide_eq_false hB]
    exact ⟨not_lt.mp hA, not_lt.mp hB⟩
  · intro l1 l2 h1 h2
    simp only [lines_match, h1, h2]
    simp

/-- Witness for C10: two identical non-blank lines fail at threshold `1`;
two blank lines (one all-spaces) still match. -/
theorem lines_match_threshold_one_witness :
    lines_match ⟨none, none, none, "same line"⟩ ⟨none, none, none, "same line"⟩ 1 = false ∧
    lines_match ⟨none, none, none, "   "⟩ ⟨none, none, none, ""⟩ 1 = true :=
  ⟨lines_match_threshold_one.1 ⟨none, none, none, "same line"⟩ ⟨none, none, none, "same line"⟩
     (by decide) (by decide),
   lines_match_threshold_one.2 ⟨none, none, none, "   "⟩ ⟨none, none, none, ""⟩
     (by decide) (by decide)⟩

/-- A successful hunk-header parse means the line starts with `'@'`. -/
theorem parseHunkHeader_head (cs : List Char) (x : Nat × Nat)
    (h : parseHunkHeader cs = some x) : ∃ rest, cs = '@' :: rest := by
  rcases cs with _ | ⟨c, rest⟩
  · simp [parseHunkHeader, dropLit] at h
  · refine ⟨rest, ?_⟩
    by_cases hc : c = '@'
    · rw [hc]
    · simp [parseHunkHeader, dropLit, hc] at h

/-- Context-line case of the parsing loop body. -/
theorem fdStep_context (st : FDState) (rest : List Char)
    (hp : st.parsing_contents = true) :
    fdStep st (' ' :: rest) = .ok { st with
      lines := st.lines ++
        [⟨st.filename, some st.left_line_num, some st.right_line_num, ⟨pyRstripList rest⟩⟩],
      left_line_num := st.left_line_num + 1,
      right_line_num := st.right_line_num + 1 } := by
  unfold fdStep
  rw [hp]
  rfl

/-- Deletion-line case of the parsing loop body. -/
theorem fdStep_deletion (st : FDState) (rest : List Char)
    (hp : st.parsing_contents = true) :
    fdStep st ('-' :: rest) = .ok { st with
      lines := st.lines ++
        [⟨st.filename, some st.left_line_num, none, ⟨pyRstripList rest⟩⟩],
      left_line_num := st.left_line_num + 1 } := by
  unfold fdStep
  rw [hp]
  simp only [Bool.not_true, Bool.and_false]
  rfl

/-- Addition-line case of the parsing loop body. -/
theorem fdStep_addition (st : FDState) (rest : List Char)
    (hp : st.parsing_contents = true) :
    fdStep st ('+' :: rest) = .ok { st with
      lines := st.lines ++
        [⟨st.filename, none, some st.right_line_num, ⟨pyRstripList rest⟩⟩],
      right_line_num := st.right_line_num + 1 } := by
  unfold fdStep
  rw [hp]
  simp only [Bool.not_true, Bool.and_false]
  rfl

/-- Hunk-header case of the parsing loop body: the counters are reset to
the header's start values. -/
theorem fdStep_header (st : FDState) (line : List Char) (a b : Nat)
    (h : parseHunkHeader line = some (a, b)) :
    fdStep st line = .ok { st with
      parsing_contents := true, left_line_num := a, right_line_num := b } := by
  obtain ⟨rest, rfl⟩ := parseHunkHeader_head line (a, b) h
  unfold fdStep
  rw [h]
  rfl

/-- Any body line with an unrecognized first character is a fatal parse
error once hunk contents are being parsed. -/
theorem fdStep_other_error (st : FDState) (c : Char) (rest : List Char)
    (hp : st.parsing_contents = true) (hh : parseHunkHeader (c :: rest) = none)
    (h1 : c ≠ ' ') (h2 : c ≠ '-') (h3 : c ≠ '+') :
    ∃ msg, fdStep st (c :: rest) = .error msg := by
  by_cases hdiff : ("diff".toList).isPrefixOf (c :: rest) = true
  · refine ⟨"assertion failed: diff line while parsing contents", ?_⟩
    unfold fdStep
    rw [if_pos hdiff, if_pos hp]
  by_cases hidx : ("index".toList).isPrefixOf (c :: rest) = true
  · refine ⟨"assertion failed: index line while parsing contents", ?_⟩
    unfold fdStep
    rw [if_neg hdiff, if_pos hidx, if_pos hp]
  refine ⟨"unrecognized line", ?_⟩
  unfold fdStep
  rw [if_neg hdiff, if_neg hidx]
  simp [hp, hh, h1, h2, h3]

/-- The empty line is likewise a fatal parse error while parsing contents
(it matches none of the recognized prefixes). -/
theorem fdStep_nil_error (st : FDState) (hp : st.parsing_contents = true) :
    fdStep st [] = .error "unrecognized line" := by
  unfold fdStep
  rw [hp]
  rfl

/-- C4: once a hunk header has initialized the two counters, each body line
behaves as specified: a context line (leading space) emits a DiffLine with
both counters and increments both; a deletion (leading `-`) emits one with
only the pre-image counter and increments only it; an addition (leading
`+`) emits one with only the post-image counter and increments only it; a
hunk header resets both counters to its start values; and a line with any
other prefix is a fatal parse error. -/
theorem fdStep_body_spec (st : FDState) (hp : st.parsing_contents = true) :
    (∀ rest : List Char, fdStep st (' ' :: rest) = .ok { st with
        lines := st.lines ++
          [⟨st.filename, some st.left_line_num, some st.right_line_num, ⟨pyRstripList rest⟩⟩],
        left_line_num := st.left_line_num + 1,
        right_line_num := st.right_line_num + 1 }) ∧
    (∀ rest : List Char, fdStep st ('-' :: rest) = .ok { st with
        lines := st.lines ++
          [⟨st.filename, some st.left_line_num, none, ⟨pyRstripList rest⟩⟩],
        left_line_num := st.left_line_num + 1 }) ∧
    (∀ rest : List Char, fdStep st ('+' :: rest) = .ok { st with
        lines := st.lines ++
          [⟨st.filename, none, some st.right_line_num, ⟨pyRstripList rest⟩⟩],
        right_line_num := st.right_line_num + 1 }) ∧
    (∀ (line : List Char) (a b : Nat), parseHunkHeader line = some (a, b) →
        fdStep st line = .ok { st with
          parsing_contents := true, left_line_num := a, right_line_num := b }) ∧
    (∀ (c : Char) (rest : List Char), parseHunkHeader (c :: rest) = none →
        c ≠ ' ' → c ≠ '-' → c ≠ '+' → ∃ msg, fdStep st (c :: rest) = .error msg) :=
  ⟨fun rest => fdStep_context st rest hp,
   fun rest => fdStep_deletion st rest hp,
   fun rest => fdStep_addition st rest hp,
   fun line a b h => fdStep_header st line a b h,
   fun c rest hh h1 h2 h3 => fdStep_other_error st c rest hp hh h1 h2 h3⟩

/-- Witness for C4 at a concrete mid-hunk state (counters 10 and 12): a
context line, a deletion, an addition, and a fresh hunk header
`@@ -20,3 +21,4 @@`. -/
theorem fdStep_body_spec_witness :
    fdStep ⟨[], some "f.txt", true, 10, 12⟩ (' ' :: "alpha".toList) =
      .ok ⟨[⟨some "f.txt", some 10, some 12, "alpha"⟩], some "f.txt", true, 11, 13⟩ ∧
    fdStep ⟨[], some "f.txt", true, 10, 12⟩ ('-' :: "beta".toList) =
      .ok ⟨[⟨some "f.txt", some 10, none, "beta"⟩], some "f.txt", true, 11, 12⟩ ∧
    fdStep ⟨[], some "f.txt", true, 10, 12⟩ ('+' :: "gamma".toList) =
      .ok ⟨[⟨some "f.txt", none, some 12, "gamma"⟩], some "f.txt", true, 10, 13⟩ ∧
    fdStep ⟨[], some "f.txt", true, 10, 12⟩ "@@ -20,3 +21,4 @@".toList =
      .ok ⟨[], some "f.txt", true, 20, 21⟩ :=
  ⟨(fdStep_body_spec ⟨[], some "f.txt", true, 10, 12⟩ rfl).1 "alpha".toList,
   (fdStep_body_spec ⟨[], some "f.txt", true, 10, 12⟩ rfl).2.1 "beta".toList,
   (fdStep_body_spec ⟨[], some "f.txt", true, 10, 12⟩ rfl).2.2.1 "gamma".toList,
   (fdStep_body_spec ⟨[], some "f.txt", true, 10, 12⟩ rfl).2.2.2.1
     "@@ -20,3 +21,4 @@".toList 20 21 (by decide)⟩

/-- Stepping the parsing loop with a successfully handled line continues
the loop from the updated state. -/
theorem fdLoop_cons (st st1 : FDState) (l : List Char) (ls : List (List Char))
    (h : fdStep st l = .ok st1) : fdLoop st (l :: ls) = fdLoop st1 ls := by
  simp only [fdLoop, h]

/-- C7: within a single hunk (a run of body lines processed from a state
with `parsing_contents` on), the parsing loop succeeds and the emitted
DiffLines' pre-image numbers (over the lines that have one) are exactly
the consecutive run starting at the pre-image counter — one per context
or deletion line, advancing by exactly one each — and likewise the
post-image numbers are the consecutive run starting at the post-image
counter, one per context or addition line. -/
theorem fdLoop_hunk_spec (body : List (List Char)) : ∀ (st : FDState),
    st.parsing_contents = true →
    (∀ l ∈ body, l.head? = some ' ' ∨ l.head? = some '-' ∨ l.head? = some '+') →
    ∃ (st' : FDState) (newLines : List FileDiffLine),
      fdLoop st body = .ok st' ∧
      st'.lines = st.lines ++ newLines ∧
      newLines.filterMap FileDiffLine.left_line_num =
        List.range' st.left_line_num
          (body.countP fun l => (l.head? == some ' ') || (l.head? == some '-')) ∧
      newLines.filterMap FileDiffLine.right_line_num =
        List.range' st.right_line_num
          (body.countP fun l => (l.head? == some ' ') || (l.head? == some '+')) := by
  induction body with
  | nil =>
    intro st _hp _hb
    exact ⟨st, [], rfl, by simp, by simp, by simp⟩
  | cons l ls ih =>
    intro st hp hb
    have hbtl : ∀ x ∈ ls, x.head? = some ' ' ∨ x.head? = some '-' ∨ x.head? = some '+' :=
      fun x hx => hb x (List.mem_cons_of_mem _ hx)
    have hc := hb l (List.mem_cons_self _ _)
    rcases l with _ | ⟨c, rest⟩
    · simp at hc
    simp only [List.head?_cons, Option.some.injEq] at hc
    rcases hc with rfl | rfl | rfl
    · -- context line
      obtain ⟨st', nl, h1, h2, h3, h4⟩ := ih
        { st with
          lines := st.lines ++
            [⟨st.filename, some st.left_line_num, some st.right_line_num, ⟨pyRstripList rest⟩⟩],
          left_line_num := st.left_line_num + 1,
          right_line_num := st.right_line_num + 1 } hp hbtl
      refine ⟨st',
        ⟨st.filename, some st.left_line_num, some st.right_line_num, ⟨pyRstripList rest⟩⟩ :: nl,
        ?_, ?_, ?_, ?_⟩
      · rw [fdLoop_cons _ _ _ _ (fdStep_context st rest hp)]
        exact h1
      · rw [h2]
        simp
      · simp [List.range'_succ, h3]
      · simp [List.range'_succ, h4]
    · -- deletion line
      obtain ⟨st', nl, h1, h2, h3, h4⟩ := ih
        { st with
          lines := st.lines ++
            [⟨st.filename, some st.left_line_num, none, ⟨pyRstripList rest⟩⟩],
          left_line_num := st.left_line_num + 1 } hp hbtl
      refine ⟨st',
        ⟨st.filename, some st.left_line_num, none, ⟨pyRstripList rest⟩⟩ :: nl,
        ?_, ?_, ?_, ?_⟩
      · rw [fdLoop_cons _ _ _ _ (fdStep_deletion st rest hp)]
        exact h1
      · rw [h2]
        simp
      · simp [List.range'_succ, h3]
      · simp [h4]
    · -- addition line
      obtain ⟨st', nl, h1, h2, h3, h4⟩ := ih
        { st with
          lines := st.lines ++
            [⟨st.filename, none, some st.right_line_num, ⟨pyRstripList rest⟩⟩],
          right_line_num := st.right_line_num + 1 } hp hbtl
      refine ⟨st',
        ⟨st.filename, none, some st.right_line_num, ⟨pyRstripList rest⟩⟩ :: nl,
        ?_, ?_, ?_, ?_⟩
      · rw [fdLoop_cons _ _ _ _ (fdStep_addition st rest hp)]
        exact h1
      · rw [h2]
        simp
      · simp [h3]
      · simp [List.range'_succ, h4]

/-- Witness for C7: a four-line hunk (context, deletion, addition,
context) starting at counters 10/10 yields pre-image numbers 10,11,12 and
post-image numbers 10,11,12, each advancing by exactly one. -/
theorem fdLoop_hunk_spec_witness :
    ∃ (st' : FDState) (newLines : List FileDiffLine),
      fdLoop ⟨[], some "f.txt", true, 10, 10⟩
          [" alpha".toList, "-beta".toList, "+new".toList, " gamma".toList] = .ok st' ∧
      st'.lines = newLines ∧
      newLines.filterMap FileDiffLine.left_line_num = List.range' 10 3 ∧
      newLines.filterMap FileDiffLine.right_line_num = List.range' 10 3 :=
  fdLoop_hunk_spec [" alpha".toList, "-beta".toList, "+new".toList, " gamma".toList]
    ⟨[], some "f.txt", true, 10, 10⟩ rfl (by decide)

/-- The claim-side notion of being farther than the context distance in
one numbering: when both line numbers of that side are present their
distance strictly exceeds `ctx`; a side with an absent number is vacuously
far (the source can never match on it). -/
def farApart (ctx : Nat) : Option Nat → Option Nat → Bool
  | some a, some b => decide (ctx < ((a : ℤ) - (b : ℤ)).natAbs)
  | _, _ => true

/-- C5: with context clipping active, (1) a diff line farther than the
context distance from every highlight of its file — in both the pre-image
and the post-image numbering — is suppressed by `FileDiff.print_stream`,
(2) `Commit.print_stream` entirely omits a file none of whose lines are
highlighted, and (3) the clipping distance selected when highlights exist
and full diffs were not requested is the fixed `10`. -/
theorem print_stream_context_clipping :
    (∀ (ctx : Nat) (hl : List (HighlightKey × String)) (d : FileDiff) (l : FileDiffLine),
      (∀ e ∈ hl, e.1.1 = d.filename →
        farApart ctx l.left_line_num e.1.2.1 = true ∧
        farApart ctx l.right_line_num e.1.2.2 = true) →
      l ∉ d.displayedLines (some ctx) (fileHighlightLines hl d.filename)) ∧
    (∀ (c : Commit) (ctx : Nat) (hl : List (HighlightKey × String)) (fn : String) (d : FileDiff),
      (∀ e ∈ hl, e.1.1 ≠ d.filename) →
      (fn, d) ∉ c.displayedFiles hl (some ctx)) ∧
    (∀ hl : List (HighlightKey × String), hl ≠ [] →
      contextAroundHighlights false hl = some 10) := by
  refine ⟨?_, ?_, ?_⟩
  · intro ctx hl d l hfar hmem
    have hshow : shouldShowLine (some ctx) (fileHighlightLines hl d.filename) l = true :=
      (List.mem_filter.mp hmem).2
    obtain ⟨entry, hentry, htrue⟩ := List.any_eq_true.mp hshow
    obtain ⟨⟨k, ch⟩, hkch, hsome⟩ := List.mem_filterMap.mp hentry
    by_cases hfn : k.1 = d.filename
    · rw [if_pos hfn] at hsome
      obtain ⟨h1, h2⟩ := hfar ⟨k, ch⟩ hkch hfn
      cases hsome
      rcases htrue' : (Bool.or_eq_true _ _).mp htrue with hside | hside
      · rcases hll : l.left_line_num with _ | a <;> rcases hkk : k.2.1 with _ | b <;>
          rw [hll, hkk] at hside <;> simp at hside
        rw [hll, hkk] at h1
        simp [farApart] at h1
        omega
      · rcases hll : l.right_line_num with _ | a <;> rcases hkk : k.2.2 with _ | b <;>
          rw [hll, hkk] at hside <;> simp at hside
        rw [hll, hkk] at h2
        simp [farApart] at h2
        omega
    · rw [if_neg hfn] at hsome
      cases hsome
  · intro c ctx hl fn d hnone hmem
    have hpred := (List.mem_filter.mp hmem).2
    simp only [Option.isSome_some, Bool.true_and, Bool.not_eq_true'] at hpred
    rcases hne : fileHighlightLines hl d.filename with _ | ⟨e, es⟩
    · rw [hne] at hpred
      simp at hpred
    · have : e ∈ fileHighlightLines hl d.filename := by rw [hne]; exact List.mem_cons_self _ _
      obtain ⟨⟨k, ch⟩, hkch, hsome⟩ := List.mem_filterMap.mp this
      by_cases hfn : k.1 = d.filename
      · exact hnone ⟨k, ch⟩ hkch hfn
      · rw [if_neg hfn] at hsome
        cases hsome
  · intro hl hne
    have : hl.isEmpty = false := by
      rcases hl with _ | _
      · exact absurd rfl hne
      · rfl
    simp [contextAroundHighlights, this]

/-- Witness for C5: with one highlight at line 5 of `a.txt` and context
distance 10, a line of `a.txt` at 30/30 is suppressed; the file `b.txt`
with no highlight of its own is omitted entirely; and the selected
clipping distance is 10. -/
theorem print_stream_context_clipping_witness :
    (⟨some "a.txt", some 30, some 30, "far"⟩ : FileDiffLine) ∉
      FileDiff.displayedLines ⟨some "a.txt", [⟨some "a.txt", some 30, some 30, "far"⟩]⟩
        (some 10)
        (fileHighlightLines [((some "a.txt", some 5, some 5), "target")] (some "a.txt")) ∧
    ("b.txt", (⟨some "b.txt", []⟩ : FileDiff)) ∉
      Commit.displayedFiles ⟨"h", none, none, "", [("b.txt", ⟨some "b.txt", []⟩)]⟩
        [((some "a.txt", some 5, some 5), "target")] (some 10) ∧
    contextAroundHighlights false [((some "a.txt", some 5, some 5), "target")] = some 10 :=
  ⟨print_stream_context_clipping.1 10 [((some "a.txt", some 5, some 5), "target")]
      ⟨some "a.txt", [⟨some "a.txt", some 30, some 30, "far"⟩]⟩
      ⟨some "a.txt", some 30, some 30, "far"⟩ (by decide),
   print_stream_context_clipping.2.1 ⟨"h", none, none, "", [("b.txt", ⟨some "b.txt", []⟩)]⟩
      10 [((some "a.txt", some 5, some 5), "target")] "b.txt" ⟨some "b.txt", []⟩ (by decide),
   print_stream_context_clipping.2.2 [((some "a.txt", some 5, some 5), "target")] (by decide)⟩

/-- The per-line candidate selection of the match loop, as an
`Option`-valued function: the appended `all_matches` element when the
guard holds, `none` otherwise. -/
def matchPred (target_line : FileDiffLine) (match_params : ℚ)
    (x : Option String × FileDiffLine) : Option HighlightKey :=
  if lines_match x.2 target_line match_params = true ∧ x.2 ≠ target_line ∧
      x.2.left_line_num ≠ none
  then some (x.1, x.2.left_line_num, x.2.right_line_num) else none

/-- Folding `matchFold` over any pair sequence appends exactly the
`matchPred`-selected keys to `all_matches` and the correspondingly
numbered `(key, str(position))` entries to `highlight_lines`, positions
continuing 1-based from the matches already accumulated. -/
theorem matchFold_foldl_spec (target_line : FileDiffLine) (match_params : ℚ) :
    ∀ (pairs : List (Option String × FileDiffLine))
      (ms : List HighlightKey) (hls : List (HighlightKey × String)),
    List.foldl (matchFold target_line match_params) (ms, hls) pairs =
      (ms ++ pairs.filterMap (matchPred target_line match_params),
       hls ++ labelFrom ms.length (pairs.filterMap (matchPred target_line match_params))) := by
  intro pairs
  induction pairs with
  | nil => intro ms hls; simp [labelFrom]
  | cons x xs ih =>
    intro ms hls
    by_cases hcond : lines_match x.2 target_line match_params = true ∧
        x.2 ≠ target_line ∧ x.2.left_line_num ≠ none
    · rw [List.foldl_cons,
        show matchFold target_line match_params (ms, hls) x =
          (ms ++ [(x.1, x.2.left_line_num, x.2.right_line_num)],
           hls ++ [((x.1, x.2.left_line_num, x.2.right_line_num), toString (ms.length + 1))])
          from by simp [matchFold, if_pos hcond],
        ih]
      rw [show (x :: xs).filterMap (matchPred target_line match_params) =
          (x.1, x.2.left_line_num, x.2.right_line_num) ::
            xs.filterMap (matchPred target_line match_params)
          from List.filterMap_cons_some (by simp [matchPred, if_pos hcond])]
      simp [labelFrom]
    · rw [List.foldl_cons,
        show matchFold target_line match_params (ms, hls) x = (ms, hls)
          from by simp [matchFold, if_neg hcond],
        ih]
      rw [show (x :: xs).filterMap (matchPred target_line match_params) =
          xs.filterMap (matchPred target_line match_params)
          from List.filterMap_cons_none (by simp [matchPred, if_neg hcond])]

/-- Every key produced by the per-file candidate selection carries that
file's name (`d.filename`), which under the dict invariant is the file's
key in `file_diffs`. -/
theorem matchInner_fst (kd : String × FileDiff) (target_line : FileDiffLine)
    (match_params : ℚ) (hkd : kd.2.filename = some kd.1) (x : HighlightKey)
    (hx : x ∈ kd.2.lines.filterMap (fun l =>
      if lines_match l target_line match_params = true ∧ l ≠ target_line ∧
          l.left_line_num ≠ none
      then some (kd.2.filename, l.left_line_num, l.right_line_num) else none)) :
    x.1 = some kd.1 := by
  obtain ⟨l, _, hfl⟩ := List.mem_filterMap.mp hx
  by_cases hcond : lines_match l target_line match_params = true ∧ l ≠ target_line ∧
      l.left_line_num ≠ none
  · rw [if_pos hcond] at hfl
    cases hfl
    exact hkd
  · rw [if_neg hcond] at hfl
    simp at hfl

/-- C3: the candidate list of one `ResolveStep` (a) is exactly the
diff-order concatenation, over the file diffs sorted by path, of the keys
of those lines that pass the similarity test, are not structurally equal
to the reference line, and have a pre-image line number; (b) membership is
characterized by exactly those three conditions over the change-set; (c)
pure additions never appear; (d) the candidates come sorted by file path;
and (e) the highlight labels number the candidates 1-based in list order
(after the reference line's own `target` label). -/
theorem find_matches_spec (c : Commit) (target_line : FileDiffLine) (match_params : ℚ)
    (targetKey : HighlightKey)
    (hkeys : ∀ kd ∈ c.file_diffs, kd.2.filename = some kd.1) :
    (computeMatchState c target_line match_params targetKey).1 =
      (sortFileDiffs c).flatMap (fun kd => kd.2.lines.filterMap (fun l =>
        if lines_match l target_line match_params = true ∧ l ≠ target_line ∧
            l.left_line_num ≠ none
        then some (kd.2.filename, l.left_line_num, l.right_line_num) else none)) ∧
    (∀ m : HighlightKey,
      m ∈ (computeMatchState c target_line match_params targetKey).1 ↔
      ∃ kd ∈ c.file_diffs, ∃ l ∈ kd.2.lines,
        lines_match l target_line match_params = true ∧ l ≠ target_line ∧
        l.left_line_num ≠ none ∧
        m = (kd.2.filename, l.left_line_num, l.right_line_num)) ∧
    (∀ m ∈ (computeMatchState c target_line match_params targetKey).1, m.2.1 ≠ none) ∧
    List.Pairwise (fun m1 m2 : HighlightKey =>
        ∃ s1 s2, m1.1 = some s1 ∧ m2.1 = some s2 ∧ s1 ≤ s2)
      (computeMatchState c target_line match_params targetKey).1 ∧
    (computeMatchState c target_line match_params targetKey).2 =
      (targetKey, "target") ::
        labelFrom 0 (computeMatchState c target_line match_params targetKey).1 := by
  have hstate : computeMatchState c target_line match_params targetKey =
      ((matchPairs c).filterMap (matchPred target_line match_params),
       (targetKey, "target") ::
         labelFrom 0 ((matchPairs c).filterMap (matchPred target_line match_params))) := by
    unfold computeMatchState
    rw [matchFold_foldl_spec]
    simp
  have hflat : (matchPairs c).filterMap (matchPred target_line match_params) =
      (sortFileDiffs c).flatMap (fun kd => kd.2.lines.filterMap (fun l =>
        if lines_match l target_line match_params = true ∧ l ≠ target_line ∧
            l.left_line_num ≠ none
        then some (kd.2.filename, l.left_line_num, l.right_line_num) else none)) := by
    unfold matchPairs
    rw [List.filterMap_flatMap]
    congr 1
    funext kd
    rw [List.filterMap_map]
    rfl
  have ha : (computeMatchState c target_line match_params targetKey).1 =
      (sortFileDiffs c).flatMap (fun kd => kd.2.lines.filterMap (fun l =>
        if lines_match l target_line match_params = true ∧ l ≠ target_line ∧
            l.left_line_num ≠ none
        then some (kd.2.filename, l.left_line_num, l.right_line_num) else none)) := by
    rw [hstate]
    exact hflat
  have hb : ∀ m : HighlightKey,
      m ∈ (computeMatchState c target_line match_params targetKey).1 ↔
      ∃ kd ∈ c.file_diffs, ∃ l ∈ kd.2.lines,
        lines_match l target_line match_params = true ∧ l ≠ target_line ∧
        l.left_line_num ≠ none ∧
        m = (kd.2.filename, l.left_line_num, l.right_line_num) := by
    intro m
    rw [ha]
    constructor
    · intro hm
      obtain ⟨kd, hkd, hmem⟩ := List.mem_flatMap.mp hm
      obtain ⟨l, hl, hfl⟩ := List.mem_filterMap.mp hmem
      have hkd' : kd ∈ c.file_diffs := by simpa [sortFileDiffs] using hkd
      by_cases hcond : lines_match l target_line match_params = true ∧ l ≠ target_line ∧
          l.left_line_num ≠ none
      · rw [if_pos hcond] at hfl
        obtain ⟨h1, h2, h3⟩ := hcond
        exact ⟨kd, hkd', l, hl, h1, h2, h3, (Option.some.inj hfl).symm⟩
      · rw [if_neg hcond] at hfl
        simp at hfl
    · rintro ⟨kd, hkd, l, hl, h1, h2, h3, rfl⟩
      refine List.mem_flatMap.mpr ⟨kd, ?_, List.mem_filterMap.mpr ⟨l, hl, ?_⟩⟩
      · simpa [sortFileDiffs] using hkd
      · rw [if_pos ⟨h1, h2, h3⟩]
  refine ⟨ha, hb, ?_, ?_, ?_⟩
  · intro m hm
    obtain ⟨kd, _, l, _, _, _, h3, rfl⟩ := (hb m).mp hm
    simpa using h3
  · rw [ha]
    refine List.pairwise_flatMap.mpr ⟨?_, ?_⟩
    · intro kd hkd
      apply List.pairwise_of_forall_mem_list
      intro x hx y hy
      have hkd' : kd ∈ c.file_diffs := by simpa [sortFileDiffs] using hkd
      exact ⟨kd.1, kd.1,
        matchInner_fst kd target_line match_params (hkeys kd hkd') x hx,
        matchInner_fst kd target_line match_params (hkeys kd hkd') y hy, le_refl _⟩
    · have hsorted : List.Pairwise
          (fun a b : String × FileDiff => decide (a.1 ≤ b.1) = true) (sortFileDiffs c) := by
        unfold sortFileDiffs
        exact List.sorted_mergeSort
          (fun a b d hab hbd => by
            simp only [decide_eq_true_eq] at hab hbd ⊢
            exact le_trans hab hbd)
          (fun a b => by
            rcases le_total a.1 b.1 with h | h <;> simp [h])
          c.file_diffs
      refine List.Pairwise.imp_of_mem ?_ hsorted
      intro kd1 kd2 hm1 hm2 hle x hx y hy
      have hkd1 : kd1 ∈ c.file_diffs := by simpa [sortFileDiffs] using hm1
      have hkd2 : kd2 ∈ c.file_diffs := by simpa [sortFileDiffs] using hm2
      exact ⟨kd1.1, kd2.1,
        matchInner_fst kd1 target_line match_params (hkeys kd1 hkd1) x hx,
        matchInner_fst kd2 target_line match_params (hkeys kd2 hkd2) y hy,
        of_decide_eq_true hle⟩
  · rw [hstate]

/-- Witness for C3: a commit with files `b.txt`, `a.txt` (listed
unsorted), a target line `foo bar` introduced at post-image 5 of `a.txt`,
one matching deletion in `a.txt` and one matching context line in
`b.txt`; the highlight list is the `target` entry followed by the
candidates labelled from `1` in order. -/
theorem find_matches_spec_witness :
    (computeMatchState
        ⟨"abc123", none, none, "msg",
          [("b.txt", ⟨some "b.txt", [⟨some "b.txt", some 9, some 9, "foo bat"⟩]⟩),
           ("a.txt", ⟨some "a.txt",
              [⟨some "a.txt", some 5, none, "foo baz"⟩,
               ⟨some "a.txt", none, some 5, "foo bar"⟩]⟩)]⟩
        ⟨some "a.txt", none, some 5, "foo bar"⟩ (mkRat 4 5)
        (some "a.txt", none, some 5)).2 =
      ((some "a.txt", (none : Option Nat), (some 5 : Option Nat)), "target") ::
        labelFrom 0
          (computeMatchState
            ⟨"abc123", none, none, "msg",
              [("b.txt", ⟨some "b.txt", [⟨some "b.txt", some 9, some 9, "foo bat"⟩]⟩),
               ("a.txt", ⟨some "a.txt",
                  [⟨some "a.txt", some 5, none, "foo baz"⟩,
                   ⟨some "a.txt", none, some 5, "foo bar"⟩]⟩)]⟩
            ⟨some "a.txt", none, some 5, "foo bar"⟩ (mkRat 4 5)
            (some "a.txt", none, some 5)).1 :=
  (find_matches_spec
    ⟨"abc123", none, none, "msg",
      [("b.txt", ⟨some "b.txt", [⟨some "b.txt", some 9, some 9, "foo bat"⟩]⟩),
       ("a.txt", ⟨some "a.txt",
          [⟨some "a.txt", some 5, none, "foo baz"⟩,
           ⟨some "a.txt", none, some 5, "foo bar"⟩]⟩)]⟩
    ⟨some "a.txt", none, some 5, "foo bar"⟩ (mkRat 4 5)
    (some "a.txt", none, some 5) (by decide)).2.2.2.2
